import Mathlib

/-!
Shallow embedding of the row-level data-permission and menu-authorization
engine of the fastapi_architecture backend, together with theorems checking
the natural-language specification against it.

Embedded source files:
- backend/common/security/rbac.py          (rbac_verify)
- backend/common/security/permission.py    (filter_data_permission)
- backend/app/admin/service/data_rule_service.py   (DataRuleService.delete)
- backend/app/admin/service/data_scope_service.py  (DataScopeService.update_data_scope_rule)
- backend/core/conf.py                     (the relevant Settings fields)
- backend/common/enums.py                  (status / operator / expression enums)

Machine integers of the source are modelled as Nat (all values in play are
small non-negative ids and enum discriminants); Python truthiness of ints is
modelled as being nonzero, of strings as being nonempty, of lists as being
nonempty; fallible code returns Except.
-/

namespace Fba

/-- Embedding of the sys_menu row fields consumed by rbac_verify: the id used
for dict deduplication, the nullable perms string and the int status
(0 disabled, 1 enabled). -/
structure Menu where
  id : Nat
  perms : Option String
  status : Nat
deriving Repr, DecidableEq

/-- Embedding of the scope objects reachable as role.scopes in
filter_data_permission: only id and status are read there. -/
structure ScopeRef where
  id : Nat
  status : Nat
deriving Repr, DecidableEq

/-- Embedding of the sys_role row fields consumed by rbac.py and
permission.py: status (0 disabled, 1 enabled), the is_filter_scopes flag,
the related menus and the related data scopes. -/
structure Role where
  id : Nat
  status : Nat
  is_filter_scopes : Bool
  menus : List Menu
  scopes : List ScopeRef
deriving Repr, DecidableEq

/-- Embedding of the request.user principal fields consumed by rbac.py and
permission.py. -/
structure Principal where
  id : Nat
  is_superuser : Bool
  is_staff : Bool
  roles : List Role
deriving Repr, DecidableEq

/-- Embedding of the sys_data_rule row fields consumed by
filter_data_permission. expression and operator are stored enum ints
(RoleDataRuleExpressionType: eq 0, ne 1, gt 2, ge 3, lt 4, le 5, in 6,
not-in 7; RoleDataRuleOperatorType: AND 0, OR 1); a database int outside the
enum range is representable, which is exactly what the unknown-operator
claims are about. The literal value is a string, as in the column type. -/
structure DataRule where
  id : Nat
  model : String
  column : String
  value : String
  expression : Nat
  operator : Nat
deriving Repr, DecidableEq

/-- Embedding of the Settings fields consumed by rbac.py and permission.py.
data_permission_models composes the source mapping (model name to module
string) with dynamic_import_data_model and table reflection: each entry maps
a model name to the column keys of the imported model. The compiled regex
list TOKEN_REQUEST_PATH_EXCLUDE_PATTERN is modelled as a path predicate. -/
structure Settings where
  token_request_path_exclude : List String
  token_request_path_exclude_pattern : String → Bool
  rbac_role_menu_mode : Bool
  rbac_role_menu_exclude : List String
  data_permission_models : List (String × List String)
  data_permission_column_exclude : List String

/-- Column keys of the Dept model table (backend/app/admin/model/dept.py
plus the DateTimeMixin columns of backend/common/model.py). -/
def deptTableColumns : List String :=
  ["id", "name", "sort", "leader", "phone", "email", "status", "del_flag",
   "parent_id", "created_time", "updated_time"]

/-- Default configuration values from backend/core/conf.py, with
FASTAPI_API_V1_PATH = /api/v1 substituted; the single compiled pattern
matches exactly /api/v1/monitors/redis and /api/v1/monitors/server. -/
def defaultSettings : Settings where
  token_request_path_exclude := ["/api/v1/auth/login"]
  token_request_path_exclude_pattern := fun p =>
    p == "/api/v1/monitors/redis" || p == "/api/v1/monitors/server"
  rbac_role_menu_mode := true
  rbac_role_menu_exclude := ["sys:monitor:redis", "sys:monitor:server"]
  data_permission_models := [("department", deptTableColumns)]
  data_permission_column_exclude := ["id", "sort", "del_flag", "created_time", "updated_time"]

/-- Deny reasons raised by rbac_verify, one per distinct raise site. -/
inductive RbacError where
  | tokenError
  | noRoleAssigned
  | noMenuAssigned
  | notStaff
  | permissionDenied
deriving Repr, DecidableEq

/-- Embedding of the Python comparison status == 0 inside
all(status == 0 for status in user_roles) at rbac.py line 40: each loop
variable status is bound to a Role ORM instance, and comparing a model
instance with the int 0 evaluates to False in Python (object.__eq__ with an
int returns NotImplemented, and the reflected int comparison also fails, so
the == expression is False). -/
def roleIntEq (_ : Role) (_ : Nat) : Bool := false

/-- Python truthiness of menu.perms: not None and nonempty. -/
def menuTruthyPerms (m : Menu) : Bool :=
  match m.perms with
  | none => false
  | some s => s != ""

/-- Splitting of a character list at every comma, with Python semantics of
str.split on an explicit separator: the empty string gives one empty field,
and separators at the ends give empty fields. -/
def splitCommaChars : List Char → List (List Char)
  | [] => [[]]
  | c :: rest =>
    if c = ',' then [] :: splitCommaChars rest
    else
      match splitCommaChars rest with
      | [] => [[c]]
      | g :: gs => (c :: g) :: gs

/-- Embedding of the Python split of a string on the comma delimiter. -/
def splitComma (s : String) : List String :=
  (splitCommaChars s.data).map String.mk

/-- The menu.perms.split of rbac.py line 75 on the comma delimiter; empty
for a NULL perms (the split is only reached when perms is truthy). -/
def menuSplitCodes (m : Menu) : List String :=
  match m.perms with
  | none => []
  | some s => splitComma s

/-- Embedding of unique_menus[menu.id] = menu on a Python dict: an existing
key keeps its position and gets the new value, a fresh key is appended. -/
def dictInsertMenu (d : List (Nat × Menu)) (m : Menu) : List (Nat × Menu) :=
  if d.any (fun p => p.1 == m.id) then
    d.map (fun p => if p.1 == m.id then (m.id, m) else p)
  else
    d ++ [(m.id, m)]

/-- Embedding of the menu deduplication loop at rbac.py lines 66 to 69. -/
def uniqueMenus (roles : List Role) : List (Nat × Menu) :=
  roles.foldl (fun d role => role.menus.foldl dictInsertMenu d) []

/-- Embedding of the allow_perms accumulation loop at rbac.py lines 72 to 75:
for every deduplicated menu with truthy perms and status equal to
StatusType.enable, extend with the comma-split codes. -/
def allowPerms (roles : List Role) : List String :=
  (uniqueMenus roles).foldl
    (fun allow_perms p =>
      if menuTruthyPerms p.2 && (p.2.status == 1) then
        allow_perms ++ menuSplitCodes p.2
      else
        allow_perms)
    []

/-- Embedding of rbac_verify (backend/common/security/rbac.py). The casbin
branch taken when RBAC_ROLE_MENU_MODE is false delegates to the casbin
plugin; its verdict is passed in as a parameter. path_auth_perm models
getattr(request.state, permission, None); the Python falsiness test on it
treats None and the empty string alike. -/
def rbac_verify (s : Settings) (casbin : Except RbacError Unit)
    (path : String) (authScopes : List String) (user : Principal)
    (method : String) (path_auth_perm : Option String) : Except RbacError Unit :=
  if s.token_request_path_exclude.contains path then .ok ()
  else if s.token_request_path_exclude_pattern path then .ok ()
  else if authScopes.isEmpty then .error .tokenError
  else if user.is_superuser then .ok ()
  else if user.roles.isEmpty || user.roles.all (fun status => roleIntEq status 0) then
    .error .noRoleAssigned
  else if !(user.roles.any (fun role => role.menus.length > 0)) then
    .error .noMenuAssigned
  else if ((method != "GET") || (method != "OPTIONS")) && !user.is_staff then
    .error .notStaff
  else if s.rbac_role_menu_mode then
    match path_auth_perm with
    | none => .ok ()
    | some perm =>
      if perm == "" then .ok ()
      else if s.rbac_role_menu_exclude.contains perm then .ok ()
      else if (allowPerms user.roles).contains perm then .ok ()
      else .error .permissionDenied
  else
    casbin

/-! Predicate compiler: backend/common/security/permission.py,
filter_data_permission. -/

/-- A single SQLAlchemy column comparison built at permission.py lines 106
to 127. For the in and not-in cases the comma-split value list is stored. -/
inductive Cond where
  | eq (column value : String)
  | ne (column value : String)
  | gt (column value : String)
  | ge (column value : String)
  | lt (column value : String)
  | le (column value : String)
  | inList (column : String) (values : List String)
  | notInList (column : String) (values : List String)
deriving Repr, DecidableEq

/-- SQLAlchemy boolean expression tree as produced by and_ and or_; truePred
stands for the literal 1 == 1. -/
inductive Pred where
  | truePred : Pred
  | cond : Cond → Pred
  | andAll : List Pred → Pred
  | orAny : List Pred → Pred
deriving Repr

/-- The trivially-true predicate or_(1 == 1) returned on every bypass path
of filter_data_permission. -/
def trivialTrue : Pred := .orAny [.truePred]

/-- Row of the target entity for evaluating compiled predicates: a map from
column name to the stored value, kept as strings like the rule literals. -/
def Row : Type := String → String

/-- Evaluation of a single comparison on a row. Equality comparisons are
string equality; the four order comparisons use the string order (the live
database applies SQL-typed comparison; no claim in this development depends
on the order cases). -/
def evalCond (row : Row) : Cond → Bool
  | .eq c v => row c == v
  | .ne c v => row c != v
  | .gt c v => decide (v < row c)
  | .ge c v => decide (v ≤ row c)
  | .lt c v => decide (row c < v)
  | .le c v => decide (row c ≤ v)
  | .inList c vs => vs.contains (row c)
  | .notInList c vs => !(vs.contains (row c))

mutual

/-- Evaluation of a predicate tree on a row: and_ is the conjunction of its
arguments, or_ the disjunction, with the SQL conventions and_() true and
or_() false on empty argument lists. -/
def evalPred (row : Row) : Pred → Bool
  | .truePred => true
  | .cond c => evalCond row c
  | .andAll ps => evalConj row ps
  | .orAny ps => evalDisj row ps

/-- Conjunction of the evaluations of a list of predicates. -/
def evalConj (row : Row) : List Pred → Bool
  | [] => true
  | p :: ps => evalPred row p && evalConj row ps

/-- Disjunction of the evaluations of a list of predicates. -/
def evalDisj (row : Row) : List Pred → Bool
  | [] => false
  | p :: ps => evalPred row p || evalDisj row ps

end

/-- Errors raised by filter_data_permission; both raise sites construct
errors.NotFoundError, so both constructors are NotFound-class. -/
inductive PermError where
  | modelNotFound
  | columnNotFound
deriving Repr, DecidableEq

/-- The scope table with its rule relation: data_scope_dao.get_with_relation
followed by reading .rules, modelled as the map from a scope id to the list
of its related DataRule rows. -/
structure ScopeDb where
  rulesOf : Nat → List DataRule

/-- Embedding of the scope collection loop at permission.py lines 67 to 71:
a Python set of the ids of scopes with truthy status across all roles.
list(set) iteration order is unspecified in Python; the embedding fixes
first-insertion order, which no claim depends on. -/
def collectScopeIds (roles : List Role) : List Nat :=
  roles.foldl
    (fun acc role =>
      role.scopes.foldl
        (fun acc scope =>
          if scope.status != 0 then
            if acc.contains scope.id then acc else acc ++ [scope.id]
          else acc)
        acc)
    []

/-- Embedding of unique_data_rules[rule.id] = rule on a Python dict, as for
menus: an existing key keeps its position and gets the new value, a fresh
key is appended. -/
def dictInsertRule (d : List (Nat × DataRule)) (r : DataRule) : List (Nat × DataRule) :=
  if d.any (fun p => p.1 == r.id) then
    d.map (fun p => if p.1 == r.id then (r.id, r) else p)
  else
    d ++ [(r.id, r)]

/-- Embedding of the rule deduplication loop at permission.py lines 78 to 85:
fetch each collected scope with its rules and key the rules by id, then take
list(unique_data_rules.values()). -/
def uniqueDataRules (db : ScopeDb) (data_scope_ids : List Nat) : List DataRule :=
  (data_scope_ids.foldl (fun d sid => (db.rulesOf sid).foldl dictInsertRule d) []).map Prod.snd

/-- Lookup of a model name in the DATA_PERMISSION_MODELS mapping, returning
the imported model table column keys. -/
def lookupModel (models : List (String × List String)) (name : String) :
    Option (List String) :=
  (models.find? (fun p => p.1 == name)).map Prod.snd

/-- Embedding of the model_columns computation at permission.py lines 98 to
100: the table column keys minus DATA_PERMISSION_COLUMN_EXCLUDE. -/
def modelColumnsOf (s : Settings) (cols : List String) : List String :=
  cols.filter (fun key => !(s.data_permission_column_exclude.contains key))

/-- Embedding of the match on data_rule.expression at permission.py lines
108 to 127: condition starts as None and the match has no default case, so
an expression value outside the eight enum members leaves it None. The
isinstance(data_rule.value, str) test is always true here because the value
column is a string, so in and not-in always comma-split. -/
def buildCondition (data_rule : DataRule) : Option Cond :=
  match data_rule.expression with
  | 0 => some (.eq data_rule.column data_rule.value)
  | 1 => some (.ne data_rule.column data_rule.value)
  | 2 => some (.gt data_rule.column data_rule.value)
  | 3 => some (.ge data_rule.column data_rule.value)
  | 4 => some (.lt data_rule.column data_rule.value)
  | 5 => some (.le data_rule.column data_rule.value)
  | 6 => some (.inList data_rule.column (splitComma data_rule.value))
  | 7 => some (.notInList data_rule.column (splitComma data_rule.value))
  | _ => none

/-- Embedding of the per-rule loop at permission.py lines 90 to 135 carrying
the two buckets where_and_list and where_or_list: validate the model name
against DATA_PERMISSION_MODELS, validate the column against the non-excluded
table columns, build the comparison, then route it by data_rule.operator
(AND is 0, OR is 1; any other stored operator value matches no case, and a
None condition is skipped by the condition is not None guard). -/
def processDataRules (s : Settings) (buckets : List Cond × List Cond) :
    List DataRule → Except PermError (List Cond × List Cond)
  | [] => .ok buckets
  | data_rule :: rest =>
    match lookupModel s.data_permission_models data_rule.model with
    | none => .error .modelNotFound
    | some cols =>
      if (modelColumnsOf s cols).contains data_rule.column then
        match buildCondition data_rule with
        | none => processDataRules s buckets rest
        | some condition =>
          match data_rule.operator with
          | 0 => processDataRules s (buckets.1 ++ [condition], buckets.2) rest
          | 1 => processDataRules s (buckets.1, buckets.2 ++ [condition]) rest
          | _ => processDataRules s buckets rest
      else .error .columnNotFound

/-- Embedding of the combination step at permission.py lines 137 to 144:
wrap a nonempty AND bucket in and_, a nonempty OR bucket in or_, join the
nonempty wrappers under or_, and fall back to or_(1 == 1) when both buckets
are empty. -/
def combineWhere (where_and_list where_or_list : List Cond) : Pred :=
  let where_list : List Pred :=
    (if where_and_list.isEmpty then [] else [.andAll (where_and_list.map .cond)]) ++
      (if where_or_list.isEmpty then [] else [.orAny (where_or_list.map .cond)])
  if where_list.isEmpty then trivialTrue else .orAny where_list

/-- Embedding of filter_data_permission (permission.py lines 47 to 144):
superuser bypass, the is_filter_scopes escape hatch over all roles, the
enabled-scope id collection, the empty-scope bypass, rule deduplication,
per-rule compilation and the final combination. -/
def filter_data_permission (s : Settings) (db : ScopeDb) (user : Principal) :
    Except PermError Pred :=
  if user.is_superuser then .ok trivialTrue
  else if user.roles.any (fun role => !role.is_filter_scopes) then .ok trivialTrue
  else
    let data_scope_ids := collectScopeIds user.roles
    if data_scope_ids.isEmpty then .ok trivialTrue
    else
      match processDataRules s ([], []) (uniqueDataRules db data_scope_ids) with
      | .error e => .error e
      | .ok (where_and_list, where_or_list) =>
        .ok (combineWhere where_and_list where_or_list)

/-! Administrative mutations relevant to cache invalidation:
backend/app/admin/service/data_rule_service.py (DataRuleService.delete) and
backend/app/admin/service/data_scope_service.py
(DataScopeService.update_data_scope_rule), over an explicit system state. -/

/-- Relational store rows consumed by the two embedded mutations and by the
reverse reachability walk: data rule primary keys, the sys_data_scope_rule
association (scope id, rule id), the sys_role_data_scope association
(role id, scope id) and the sys_user_role association (user id, role id). -/
structure AdminDb where
  rules : List Nat
  scope_rules : List (Nat × Nat)
  role_scopes : List (Nat × Nat)
  user_roles : List (Nat × Nat)
deriving Repr, DecidableEq

/-- System state: the relational store plus the redis cache, the latter as
the list of present keys (the per-user snapshot for user id n lives under
the key fba:user:n, from JWT_USER_REDIS_PREFIX in conf.py). -/
structure SysState where
  db : AdminDb
  cache : List String
deriving Repr, DecidableEq

/-- Cache key of the per-user authorization snapshot. -/
def userCacheKey (uid : Nat) : String := "fba:user:" ++ toString uid

/-- Embedding of DataRuleService.delete (data_rule_service.py lines 112 to
122): data_rule_dao.delete removes the rules whose id is in obj.pks and
returns the deleted row count; the sys_data_scope_rule association rows of a
deleted rule go with it through the ON DELETE CASCADE foreign key
(backend/app/admin/model/m2m.py). The method body touches nothing else: in
particular it issues no redis deletion. -/
def dataRuleServiceDelete (st : SysState) (pks : List Nat) : SysState × Nat :=
  let remaining := st.db.rules.filter (fun rid => !(pks.contains rid))
  let count := st.db.rules.length - remaining.length
  ({ st with
      db := { st.db with
              rules := remaining,
              scope_rules := st.db.scope_rules.filter (fun p => !(pks.contains p.2)) } },
    count)

/-- Embedding of DataScopeService.update_data_scope_rule
(data_scope_service.py lines 106 to 117) with
CRUDDataScope.update_rules (crud_data_scope.py): the scope pk gets as its
new rule set exactly the existing rules whose id is in the request list, and
the new count is returned. The method issues no redis deletion. -/
def updateDataScopeRule (st : SysState) (pk : Nat) (rule_ids : List Nat) :
    SysState × Nat :=
  let newRules := st.db.rules.filter (fun rid => rule_ids.contains rid)
  let scope_rules :=
    st.db.scope_rules.filter (fun p => p.1 != pk) ++ newRules.map (fun rid => (pk, rid))
  ({ st with db := { st.db with scope_rules := scope_rules } }, newRules.length)

/-- Modelled from the spec (section 4.3 reverse walk, stated there in
prose): the users transitively reachable from a data rule, rule to scopes
containing it, to roles holding those scopes, to users holding those roles.
Used only to state which cache entries a mutation must purge. -/
def usersReachableFromRule (db : AdminDb) (ruleId : Nat) : List Nat :=
  (db.user_roles.filter (fun ur =>
    db.role_scopes.any (fun rs =>
      rs.1 == ur.2 &&
        db.scope_rules.any (fun sr => sr.1 == rs.2 && sr.2 == ruleId)))).map Prod.fst

/-! Specification-side definitions, written from the wording of the spec,
for comparison with the embedded code. -/

/-- Codes a menu contributes in the spec wording of step 10: the codes of an
enabled menu with a nonempty code string, split on the comma delimiter. -/
def enabledMenuCodes (m : Menu) : List String :=
  if menuTruthyPerms m && (m.status == 1) then menuSplitCodes m else []

/-- Flattened list of the codes contributed by a list of menus. -/
def menusCodes : List Menu → List String
  | [] => []
  | m :: rest => enabledMenuCodes m ++ menusCodes rest

/-- All menus attached to a list of roles, in order. -/
def allMenusOf : List Role → List Menu
  | [] => []
  | role :: rest => role.menus ++ allMenusOf rest

/-- Spec-side union of step 10: the permission codes attached to enabled
menus across a list of roles, split and flattened. -/
def menuCodeUnion (roles : List Role) : List String :=
  menusCodes (allMenusOf roles)

/-- Menus loaded from the same sys_menu table are identified by their id:
two menus occurring anywhere in the list with equal ids are equal. This is
the database invariant under which dict deduplication by id is lossless. -/
def MenusConsistent (menus : List Menu) : Prop :=
  ∀ m1 ∈ menus, ∀ m2 ∈ menus, m1.id = m2.id → m1 = m2

/-- Spec-side AND bucket: the compiled conditions of the rules whose
combining operator is AND, in order. -/
def andBucketSpec (rules : List DataRule) : List Cond :=
  rules.filterMap (fun r => if r.operator == 0 then buildCondition r else none)

/-- Spec-side OR bucket: the compiled conditions of the rules whose
combining operator is OR, in order. -/
def orBucketSpec (rules : List DataRule) : List Cond :=
  rules.filterMap (fun r => if r.operator == 1 then buildCondition r else none)

/-- Resolvability of a rule against the configuration: its model name is in
DATA_PERMISSION_MODELS and its column is among the non-excluded columns of
that model. -/
def ruleResolvable (s : Settings) (r : DataRule) : Bool :=
  match lookupModel s.data_permission_models r.model with
  | none => false
  | some cols => (modelColumnsOf s cols).contains r.column

/-- Roles whose status is enabled, as the spec wording of step 10 selects
them; written from the spec for comparison with the embedded code, which
does not apply this filter. -/
def enabledRoles (roles : List Role) : List Role :=
  roles.filter (fun role => role.status == 1)

/-! Concrete instances used by counterexamples, code-bug evaluations and
witnesses. -/

/-- An empty scope-to-rule relation. -/
def emptyScopeDb : ScopeDb := ⟨fun _ => []⟩

/-- Non-staff principal with one enabled role carrying one enabled menu. -/
def c2User : Principal :=
  { id := 1, is_superuser := false, is_staff := false,
    roles := [{ id := 1, status := 1, is_filter_scopes := true,
                menus := [{ id := 1, perms := some "sys:dept:list", status := 1 }],
                scopes := [] }] }

/-- Staff principal whose only role is disabled (status 0) but carries a
menu. -/
def c6User : Principal :=
  { id := 2, is_superuser := false, is_staff := true,
    roles := [{ id := 9, status := 0, is_filter_scopes := true,
                menus := [{ id := 3, perms := none, status := 1 }],
                scopes := [] }] }

/-- Staff principal whose only role is disabled (status 0) and carries an
enabled menu holding the permission code sys:dept:list. -/
def c7User : Principal :=
  { id := 7, is_superuser := false, is_staff := true,
    roles := [{ id := 8, status := 0, is_filter_scopes := true,
                menus := [{ id := 11, perms := some "sys:dept:list", status := 1 }],
                scopes := [] }] }

/-- Principal with one role that has is_filter_scopes false. -/
def c4User : Principal :=
  { id := 3, is_superuser := false, is_staff := false,
    roles := [{ id := 4, status := 1, is_filter_scopes := false, menus := [], scopes := [] }] }

/-- Superuser principal. -/
def c9User : Principal :=
  { id := 8, is_superuser := true, is_staff := false, roles := [] }

/-- Principal with one disabled role (status 0) that has is_filter_scopes
false and one enabled scope. -/
def c10User : Principal :=
  { id := 12, is_superuser := false, is_staff := false,
    roles := [{ id := 13, status := 0, is_filter_scopes := false, menus := [],
                scopes := [{ id := 3, status := 1 }] }] }

/-- Data rule with a resolvable model and column but the unknown comparison
operator value 99. -/
def c3Rule : DataRule :=
  { id := 1, model := "department", column := "name", value := "x",
    expression := 99, operator := 0 }

/-- Scope relation where scope 1 carries only the unknown-operator rule. -/
def c3Db : ScopeDb := ⟨fun sid => if sid == 1 then [c3Rule] else []⟩

/-- Non-superuser principal with one filtering role holding enabled
scope 1. -/
def c3User : Principal :=
  { id := 5, is_superuser := false, is_staff := false,
    roles := [{ id := 6, status := 1, is_filter_scopes := true, menus := [],
                scopes := [{ id := 1, status := 1 }] }] }

/-- Data rule with the excluded column del_flag. -/
def c8Rule : DataRule :=
  { id := 4, model := "department", column := "del_flag", value := "0",
    expression := 0, operator := 0 }

/-- Scope relation where scope 1 carries only the excluded-column rule. -/
def c8Db : ScopeDb := ⟨fun sid => if sid == 1 then [c8Rule] else []⟩

/-- Configuration instance for the section 8 example of the spec: a
deployment whose department model exposes the filterable columns dept and
owner. Only data_permission_models differs from the defaults. -/
def demoSettings : Settings :=
  { defaultSettings with data_permission_models := [("department", ["id", "dept", "owner"])] }

/-- The AND-rule dept = 5 of the section 8 example. -/
def ruleDept : DataRule :=
  { id := 1, model := "department", column := "dept", value := "5",
    expression := 0, operator := 0 }

/-- The OR-rule owner = 7 of the section 8 example. -/
def ruleOwner : DataRule :=
  { id := 2, model := "department", column := "owner", value := "7",
    expression := 0, operator := 1 }

/-- Scope relation of the section 8 example: scope 1 carries the AND-rule,
scope 2 carries both rules, so the AND-rule is reachable via two scopes. -/
def c5Db : ScopeDb :=
  ⟨fun sid => if sid == 1 then [ruleDept] else if sid == 2 then [ruleDept, ruleOwner] else []⟩

/-- Principal of the section 8 example: two filtering roles, one holding
scope 1 and the other holding scope 2. -/
def c5User : Principal :=
  { id := 6, is_superuser := false, is_staff := false,
    roles := [{ id := 1, status := 1, is_filter_scopes := true, menus := [],
                scopes := [{ id := 1, status := 1 }] },
              { id := 2, status := 1, is_filter_scopes := true, menus := [],
                scopes := [{ id := 2, status := 1 }] }] }

/-- The predicate the section 8 example compiles to. -/
def c5Pred : Pred :=
  .orAny [.andAll [.cond (.eq "dept" "5")], .orAny [.cond (.eq "owner" "7")]]

/-- System state with rule 1 attached to scope 10, scope 10 held by role 20,
role 20 held by user 30, and cached snapshots for users 30 and 99. -/
def st0 : SysState :=
  { db := { rules := [1, 2], scope_rules := [(10, 1)], role_scopes := [(20, 10)],
            user_roles := [(30, 20)] },
    cache := [userCacheKey 30, userCacheKey 99] }

/-! Theorems. -/

/-- C1: DataRuleService.delete and DataScopeService.update_data_scope_rule
leave the cache untouched for every state and argument, although in the
state st0 user 30 is transitively reachable from rule 1 and the claim
requires the cached snapshot of user 30 to be purged by deleting rule 1:
after the delete the key of user 30 is still cached. -/
theorem c1_rule_delete_and_scope_rule_update_never_purge :
    (∀ (st : SysState) (pks : List Nat),
      ((dataRuleServiceDelete st pks).1).cache = st.cache) ∧
    (∀ (st : SysState) (pk : Nat) (rule_ids : List Nat),
      ((updateDataScopeRule st pk rule_ids).1).cache = st.cache) ∧
    30 ∈ usersReachableFromRule st0.db 1 ∧
    ((dataRuleServiceDelete st0 [1]).1).cache = [userCacheKey 30, userCacheKey 99] := by
  refine ⟨fun st pks => rfl, fun st pk rule_ids => rfl, ?_, rfl⟩
  decide

/-- C2: for the non-staff principal c2User that passes the role and menu
checks, rbac_verify denies a GET request with the
management-operations-forbidden reason exactly as it denies a POST, because
the condition method != GET or method != OPTIONS is true for every method;
the claim that GET is not denied by the staff check is false on the code. -/
theorem c2_staff_check_denies_get_for_non_staff :
    rbac_verify defaultSettings (.ok ()) "/api/v1/depts" ["v1"] c2User "GET" none
      = .error .notStaff ∧
    rbac_verify defaultSettings (.ok ()) "/api/v1/depts" ["v1"] c2User "POST" none
      = .error .notStaff := by
  exact ⟨rfl, rfl⟩

/-- C6: the role check of rbac_verify does not deny the principal c6User,
whose only role is disabled (status 0), because the Python expression
all(status == 0 for status in user_roles) compares Role instances with the
int 0 and is therefore false on every nonempty role list; only a principal
with zero roles is denied with the no-role-assigned reason. -/
theorem c6_all_disabled_roles_not_denied :
    rbac_verify defaultSettings (.ok ()) "/api/v1/users" ["v1"] c6User "POST" none
      = .ok () ∧
    rbac_verify defaultSettings (.ok ()) "/api/v1/users" ["v1"]
        { c6User with roles := [] } "POST" none
      = .error .noRoleAssigned := by
  exact ⟨rfl, rfl⟩

/-- Shared helper: a principal holding any role with is_filter_scopes false
takes the escape hatch of filter_data_permission. -/
theorem filter_escape_hatch_of_mem (s : Settings) (db : ScopeDb) (user : Principal)
    (role : Role) (hsu : user.is_superuser = false) (hmem : role ∈ user.roles)
    (hflag : role.is_filter_scopes = false) :
    filter_data_permission s db user = .ok trivialTrue := by
  have hany : user.roles.any (fun role => !role.is_filter_scopes) = true :=
    List.any_eq_true.mpr ⟨role, hmem, by rw [hflag]; rfl⟩
  simp [filter_data_permission, hsu, hany]

/-- C4: for every non-superuser principal holding at least one role with
is_filter_scopes false, filter_data_permission returns the trivially-true
predicate, regardless of the scopes attached to any role. -/
theorem c4_filter_scopes_escape_hatch (s : Settings) (db : ScopeDb) (user : Principal)
    (role : Role) (hsu : user.is_superuser = false) (hmem : role ∈ user.roles)
    (hflag : role.is_filter_scopes = false) :
    filter_data_permission s db user = .ok trivialTrue :=
  filter_escape_hatch_of_mem s db user role hsu hmem hflag

/-- Witness for C4 at the concrete principal c4User. -/
theorem c4_filter_scopes_escape_hatch_witness :
    filter_data_permission defaultSettings emptyScopeDb c4User = .ok trivialTrue :=
  c4_filter_scopes_escape_hatch defaultSettings emptyScopeDb c4User
    { id := 4, status := 1, is_filter_scopes := false, menus := [], scopes := [] }
    rfl (by decide) rfl

/-- C9: a superuser principal gets the trivially-true predicate from
filter_data_permission, and rbac_verify allows it for every path, method,
required code and role list, provided the request carries the verified
authentication scope marker. -/
theorem c9_superuser_bypass (s : Settings) (db : ScopeDb)
    (casbin : Except RbacError Unit) (path : String) (authScopes : List String)
    (user : Principal) (method : String) (perm : Option String)
    (hsu : user.is_superuser = true) (hsc : authScopes ≠ []) :
    filter_data_permission s db user = .ok trivialTrue ∧
    rbac_verify s casbin path authScopes user method perm = .ok () := by
  constructor
  · simp [filter_data_permission, hsu]
  · by_cases h1 : path ∈ s.token_request_path_exclude
    · simp [rbac_verify, h1]
    · by_cases h2 : s.token_request_path_exclude_pattern path = true
      · simp [rbac_verify, h1, h2]
      · have h2f : s.token_request_path_exclude_pattern path = false := by
          simpa using h2
        simp [rbac_verify, h1, h2f, hsc, hsu]

/-- Shared helper: every id collected from one role's scope list by the
inner loop of collectScopeIds was in the accumulator already or belongs to a
scope with nonzero status. -/
theorem collect_scopes_foldl_mem (scopes : List ScopeRef) (acc : List Nat) (sid : Nat)
    (h : sid ∈ scopes.foldl
      (fun acc scope =>
        if scope.status != 0 then
          if acc.contains scope.id then acc else acc ++ [scope.id]
        else acc) acc) :
    sid ∈ acc ∨ ∃ scope ∈ scopes, scope.id = sid ∧ scope.status ≠ 0 := by
  induction scopes generalizing acc with
  | nil => exact Or.inl h
  | cons sc rest ih =>
    simp only [List.foldl_cons] at h
    rcases ih _ h with h' | ⟨scope, hm, hid, hst⟩
    · by_cases hs : (sc.status != 0) = true
      · rw [if_pos hs] at h'
        by_cases hc : (acc.contains sc.id) = true
        · rw [if_pos hc] at h'
          exact Or.inl h'
        · rw [if_neg hc] at h'
          rcases List.mem_append.mp h' with h'' | h''
          · exact Or.inl h''
          · have hsid : sid = sc.id := by simpa using h''
            exact Or.inr ⟨sc, List.mem_cons_self _ _, hsid.symm, by simpa using hs⟩
      · rw [if_neg hs] at h'
        exact Or.inl h'
    · exact Or.inr ⟨scope, List.mem_cons_of_mem _ hm, hid, hst⟩

/-- Shared helper: lifting of the previous lemma through the outer role
loop of collectScopeIds. -/
theorem collect_roles_foldl_mem (roles : List Role) (acc : List Nat) (sid : Nat)
    (h : sid ∈ roles.foldl
      (fun acc role =>
        role.scopes.foldl
          (fun acc scope =>
            if scope.status != 0 then
              if acc.contains scope.id then acc else acc ++ [scope.id]
            else acc)
          acc)
      acc) :
    sid ∈ acc ∨ ∃ role ∈ roles, ∃ scope ∈ role.scopes, scope.id = sid ∧ scope.status ≠ 0 := by
  induction roles generalizing acc with
  | nil => exact Or.inl h
  | cons role rest ih =>
    simp only [List.foldl_cons] at h
    rcases ih _ h with h' | ⟨role', hm', scope, hms, hid, hst⟩
    · rcases collect_scopes_foldl_mem _ _ _ h' with h'' | ⟨scope, hm, hid, hst⟩
      · exact Or.inl h''
      · exact Or.inr ⟨role, List.mem_cons_self _ _, scope, hm, hid, hst⟩
    · exact Or.inr ⟨role', List.mem_cons_of_mem _ hm', scope, hms, hid, hst⟩

/-- C10: the is_filter_scopes escape hatch of filter_data_permission does
not test role status, so a disabled role with is_filter_scopes false still
yields the trivially-true predicate, while the scope-collection step only
ever collects ids of scopes whose status is nonzero (enabled). -/
theorem c10_escape_hatch_ignores_role_status :
    (∀ (s : Settings) (db : ScopeDb) (user : Principal) (role : Role),
      user.is_superuser = false → role ∈ user.roles → role.status = 0 →
      role.is_filter_scopes = false →
      filter_data_permission s db user = .ok trivialTrue) ∧
    (∀ (roles : List Role) (sid : Nat), sid ∈ collectScopeIds roles →
      ∃ role ∈ roles, ∃ scope ∈ role.scopes, scope.id = sid ∧ scope.status ≠ 0) := by
  constructor
  · intro s db user role hsu hmem _hstatus hflag
    exact filter_escape_hatch_of_mem s db user role hsu hmem hflag
  · intro roles sid h
    rcases collect_roles_foldl_mem roles [] sid h with h' | h'
    · simp at h'
    · exact h'

/-- Witness for C10: the disabled role of c10User with is_filter_scopes
false takes the escape hatch, and the enabled scope 3 it holds is collected
from an enabled scope. -/
theorem c10_escape_hatch_ignores_role_status_witness :
    filter_data_permission defaultSettings emptyScopeDb c10User = .ok trivialTrue ∧
    ∃ role ∈ c10User.roles, ∃ scope ∈ role.scopes, scope.id = 3 ∧ scope.status ≠ 0 :=
  ⟨c10_escape_hatch_ignores_role_status.1 defaultSettings emptyScopeDb c10User
      { id := 13, status := 0, is_filter_scopes := false, menus := [],
        scopes := [{ id := 3, status := 1 }] }
      rfl (by decide) rfl rfl,
    c10_escape_hatch_ignores_role_status.2 c10User.roles 3 (by decide)⟩

/-- C3 counterexample: the unresolvable-operator rule c3Rule (expression 99,
valid model and column) does not make filter_data_permission fail: on
c3Db and c3User it succeeds with the trivially-true predicate, refuting the
claim that an unknown comparison operator raises a NotFound-class error. -/
theorem c3_unknown_expression_not_an_error :
    filter_data_permission defaultSettings c3Db c3User = .ok trivialTrue ∧
    ∀ e : PermError, filter_data_permission defaultSettings c3Db c3User ≠ .error e := by
  refine ⟨rfl, fun e h => ?_⟩
  rw [show filter_data_permission defaultSettings c3Db c3User = .ok trivialTrue from rfl] at h
  exact Except.noConfusion h

/-- C3 as amended: a rule whose comparison operator is outside the eight
known operators, but whose model and column resolve, is silently dropped by
the per-rule loop: deleting it from the processed list does not change the
outcome, and on the concrete instance c3Db, c3User the compiler succeeds
with the predicate built from the remaining rules (here none, hence the
trivially-true predicate). -/
theorem c3_unknown_expression_silently_dropped (s : Settings)
    (buckets : List Cond × List Cond) (l1 l2 : List DataRule) (r : DataRule)
    (hres : ruleResolvable s r = true) (hexpr : buildCondition r = none) :
    processDataRules s buckets (l1 ++ r :: l2) = processDataRules s buckets (l1 ++ l2) ∧
    filter_data_permission defaultSettings c3Db c3User = .ok trivialTrue := by
  refine ⟨?_, rfl⟩
  induction l1 generalizing buckets with
  | nil =>
    simp only [List.nil_append]
    unfold ruleResolvable at hres
    cases hlm : lookupModel s.data_permission_models r.model with
    | none => rw [hlm] at hres; exact absurd hres (by simp)
    | some cols =>
      rw [hlm] at hres
      simp only [processDataRules, hlm]
      rw [if_pos hres, hexpr]
  | cons h t ih =>
    simp only [List.cons_append, processDataRules]
    cases hlm : lookupModel s.data_permission_models h.model with
    | none => simp only [hlm]
    | some cols =>
      simp only [hlm]
      by_cases hc : ((modelColumnsOf s cols).contains h.column) = true
      · rw [if_pos hc, if_pos hc]
        cases hbc : buildCondition h with
        | none => simp only [hbc]; exact ih _
        | some condition =>
          simp only [hbc]
          cases hop : h.operator with
          | zero => exact ih _
          | succ m =>
            cases m with
            | zero => exact ih _
            | succ k => exact ih _
      · rw [if_neg hc, if_neg hc]

/-- Shared helper: the per-rule loop fails whenever the processed list holds
a rule whose model or column does not resolve against the configuration. -/
theorem processDataRules_error_of_unresolvable (s : Settings) (r : DataRule)
    (hbad : ruleResolvable s r = false) :
    ∀ (rules : List DataRule) (buckets : List Cond × List Cond), r ∈ rules →
      ∃ e, processDataRules s buckets rules = .error e := by
  intro rules
  induction rules with
  | nil => intro buckets hmem; cases hmem
  | cons h t ih =>
    intro buckets hmem
    cases hlm : lookupModel s.data_permission_models h.model with
    | none => exact ⟨.modelNotFound, by simp only [processDataRules, hlm]⟩
    | some cols =>
      by_cases hc : ((modelColumnsOf s cols).contains h.column) = true
      · rcases List.mem_cons.mp hmem with rfl | hmem'
        · simp [ruleResolvable, hlm, hc] at hbad
          exact absurd (by simpa using hc) hbad
        · cases hbc : buildCondition h with
          | none =>
            obtain ⟨e, he⟩ := ih buckets hmem'
            exact ⟨e, by simp only [processDataRules, hlm]; rw [if_pos hc]; simp only [hbc]; exact he⟩
          | some condition =>
            cases hop : h.operator with
            | zero =>
              obtain ⟨e, he⟩ := ih (buckets.1 ++ [condition], buckets.2) hmem'
              exact ⟨e, by
                simp only [processDataRules, hlm]
                rw [if_pos hc]
                simp only [hbc, hop]
                exact he⟩
            | succ m =>
              cases m with
              | zero =>
                obtain ⟨e, he⟩ := ih (buckets.1, buckets.2 ++ [condition]) hmem'
                exact ⟨e, by
                  simp only [processDataRules, hlm]
                  rw [if_pos hc]
                  simp only [hbc, hop]
                  exact he⟩
              | succ k =>
                obtain ⟨e, he⟩ := ih buckets hmem'
                exact ⟨e, by
                  simp only [processDataRules, hlm]
                  rw [if_pos hc]
                  simp only [hbc, hop]
                  exact he⟩
      · exact ⟨.columnNotFound, by
          simp only [processDataRules, hlm]
          rw [if_neg hc]⟩

/-- C8: if the deduplicated rule set to be compiled holds any rule whose
model name is not in DATA_PERMISSION_MODELS, or whose column is not among
the non-excluded columns of the resolved model, filter_data_permission
fails with one of its NotFound-class errors rather than skipping the
rule. -/
theorem c8_unresolvable_rule_fails_notfound (s : Settings) (db : ScopeDb)
    (user : Principal) (r : DataRule) (hsu : user.is_superuser = false)
    (hfs : ∀ role ∈ user.roles, role.is_filter_scopes = true)
    (hmem : r ∈ uniqueDataRules db (collectScopeIds user.roles))
    (hbad : ruleResolvable s r = false) :
    ∃ e, filter_data_permission s db user = .error e := by
  have hany : user.roles.any (fun role => !role.is_filter_scopes) = false := by
    simp only [List.any_eq_false]
    intro role hrole
    simp [hfs role hrole]
  cases hemp : (collectScopeIds user.roles).isEmpty with
  | true =>
    rw [List.isEmpty_iff] at hemp
    rw [hemp] at hmem
    simp [uniqueDataRules] at hmem
  | false =>
    obtain ⟨e, he⟩ :=
      processDataRules_error_of_unresolvable s r hbad
        (uniqueDataRules db (collectScopeIds user.roles)) ([], []) hmem
    refine ⟨e, ?_⟩
    simp only [filter_data_permission, hsu, hany, hemp]
    simp only [Bool.false_eq_true, if_false]
    rw [he]

/-- Witness for C8: the excluded-column rule c8Rule (column del_flag) held
by scope 1 of c3User makes the compiler fail. -/
theorem c8_unresolvable_rule_fails_notfound_witness :
    ∃ e, filter_data_permission defaultSettings c8Db c3User = .error e :=
  c8_unresolvable_rule_fails_notfound defaultSettings c8Db c3User c8Rule rfl
    (by decide) (by decide) (by decide)

/-- Shared helper: when every processed rule resolves, the per-rule loop
succeeds and appends exactly the spec-side AND and OR buckets to the
accumulators. -/
theorem processDataRules_ok_of_resolvable (s : Settings) :
    ∀ (rules : List DataRule) (buckets : List Cond × List Cond),
      (∀ r ∈ rules, ruleResolvable s r = true) →
      processDataRules s buckets rules =
        .ok (buckets.1 ++ andBucketSpec rules, buckets.2 ++ orBucketSpec rules) := by
  intro rules
  induction rules with
  | nil =>
    intro buckets _
    simp [processDataRules, andBucketSpec, orBucketSpec]
  | cons h t ih =>
    intro buckets hres
    have hh := hres h (List.mem_cons_self _ _)
    unfold ruleResolvable at hh
    cases hlm : lookupModel s.data_permission_models h.model with
    | none => rw [hlm] at hh; exact absurd hh (by simp)
    | some cols =>
      rw [hlm] at hh
      have ht : ∀ r ∈ t, ruleResolvable s r = true :=
        fun r hr => hres r (List.mem_cons_of_mem _ hr)
      simp only [processDataRules, hlm]
      rw [if_pos hh]
      cases hbc : buildCondition h with
      | none =>
        show processDataRules s buckets t =
          Except.ok (buckets.1 ++ andBucketSpec (h :: t), buckets.2 ++ orBucketSpec (h :: t))
        rw [ih buckets ht]
        simp [andBucketSpec, orBucketSpec, hbc]
      | some condition =>
        cases hop : h.operator with
        | zero =>
          show processDataRules s (buckets.1 ++ [condition], buckets.2) t =
            Except.ok (buckets.1 ++ andBucketSpec (h :: t), buckets.2 ++ orBucketSpec (h :: t))
          rw [ih (buckets.1 ++ [condition], buckets.2) ht]
          simp [andBucketSpec, orBucketSpec, hbc, hop]
        | succ m =>
          cases m with
          | zero =>
            show processDataRules s (buckets.1, buckets.2 ++ [condition]) t =
              Except.ok (buckets.1 ++ andBucketSpec (h :: t), buckets.2 ++ orBucketSpec (h :: t))
            rw [ih (buckets.1, buckets.2 ++ [condition]) ht]
            simp [andBucketSpec, orBucketSpec, hbc, hop]
          | succ k =>
            show processDataRules s buckets t =
              Except.ok (buckets.1 ++ andBucketSpec (h :: t), buckets.2 ++ orBucketSpec (h :: t))
            rw [ih buckets ht]
            have h0 : (k + 2 == 0) = false := by simp
            have h1 : (k + 2 == 1) = false := by simp
            simp [andBucketSpec, orBucketSpec, hbc, hop, h0, h1]

/-- Shared helper: the combination step spelled as the spec states it,
OR of the nonempty bucket wrappers with the trivially-true fallback. -/
theorem combineWhere_shape (a b : List Cond) :
    combineWhere a b =
      if a.isEmpty && b.isEmpty then trivialTrue
      else
        .orAny ((if a.isEmpty then [] else [.andAll (a.map .cond)]) ++
          (if b.isEmpty then [] else [.orAny (b.map .cond)])) := by
  unfold combineWhere
  cases ha : a.isEmpty <;> cases hb : b.isEmpty <;> simp [ha, hb]

/-- C5: for a principal with no escape hatch whose deduplicated rule set
fully resolves, filter_data_permission returns OR of AND of the AND-bucket
and OR of the OR-bucket, an empty bucket omitted and both buckets empty
yielding the trivially-true predicate, where the buckets are collected from
the rules deduplicated by id across the collected enabled scopes; and on
the section 8 example (AND-rule dept = 5 reachable via two scopes, OR-rule
owner = 7) the compiled predicate evaluates on every row exactly as
dept = 5 OR owner = 7, with the shared rule contributing once. -/
theorem c5_two_bucket_combination (s : Settings) (db : ScopeDb) (user : Principal)
    (hsu : user.is_superuser = false)
    (hfs : ∀ role ∈ user.roles, role.is_filter_scopes = true)
    (hres : ∀ r ∈ uniqueDataRules db (collectScopeIds user.roles),
      ruleResolvable s r = true) :
    (filter_data_permission s db user =
      .ok (let and_bucket := andBucketSpec (uniqueDataRules db (collectScopeIds user.roles))
           let or_bucket := orBucketSpec (uniqueDataRules db (collectScopeIds user.roles))
           if and_bucket.isEmpty && or_bucket.isEmpty then trivialTrue
           else
             .orAny ((if and_bucket.isEmpty then [] else [.andAll (and_bucket.map .cond)]) ++
               (if or_bucket.isEmpty then [] else [.orAny (or_bucket.map .cond)])))) ∧
    filter_data_permission demoSettings c5Db c5User = .ok c5Pred ∧
    ∀ row : Row, evalPred row c5Pred = ((row "dept" == "5") || (row "owner" == "7")) := by
  refine ⟨?_, rfl, ?_⟩
  · have hany : user.roles.any (fun role => !role.is_filter_scopes) = false := by
      simp only [List.any_eq_false]
      intro role hrole
      simp [hfs role hrole]
    cases hemp : (collectScopeIds user.roles).isEmpty with
    | true =>
      rw [List.isEmpty_iff] at hemp
      simp only [filter_data_permission, hsu, hany, hemp]
      simp [uniqueDataRules, andBucketSpec, orBucketSpec]
    | false =>
      have hok :=
        processDataRules_ok_of_resolvable s
          (uniqueDataRules db (collectScopeIds user.roles)) ([], []) hres
      simp only [filter_data_permission, hsu, hany, hemp]
      simp only [Bool.false_eq_true, if_false]
      rw [hok]
      simp only [List.nil_append]
      rw [combineWhere_shape]
  · intro row
    simp [c5Pred, evalPred, evalCond, evalConj, evalDisj]

/-- Witness for C5 at the section 8 example. -/
theorem c5_two_bucket_combination_witness :
    filter_data_permission demoSettings c5Db c5User = .ok c5Pred :=
  ((c5_two_bucket_combination demoSettings c5Db c5User rfl (by decide) (by decide)).2).1

/-- Shared helper: mapping a function that fixes every element of a list is
the identity on that list. -/
theorem list_map_self {α : Type} (f : α → α) :
    ∀ l : List α, (∀ a ∈ l, f a = a) → l.map f = l := by
  intro l
  induction l with
  | nil => intro _; rfl
  | cons a t ih =>
    intro h
    simp only [List.map_cons]
    rw [h a (List.mem_cons_self _ _), ih (fun b hb => h b (List.mem_cons_of_mem _ hb))]

/-- Shared helper: the nested menu loop of uniqueMenus is the fold of
dictInsertMenu over the flattened menu list. -/
theorem uniqueMenus_foldl (roles : List Role) :
    ∀ d : List (Nat × Menu),
      roles.foldl (fun d role => role.menus.foldl dictInsertMenu d) d =
        (allMenusOf roles).foldl dictInsertMenu d := by
  induction roles with
  | nil => intro d; rfl
  | cons role rest ih =>
    intro d
    simp only [List.foldl_cons, allMenusOf, List.foldl_append]
    exact ih _

/-- Shared helper: under id-consistency of the menu universe, folding menus
into the dict preserves the set of stored menu values: a menu is a value of
the resulting dict exactly when it was one already or occurs in the folded
list. -/
theorem dictInsertMenu_values_mem (U : List Menu) (hcons : MenusConsistent U) :
    ∀ (L : List Menu) (d : List (Nat × Menu)),
      (∀ p ∈ d, p.1 = p.2.id) → (∀ p ∈ d, p.2 ∈ U) → (∀ m ∈ L, m ∈ U) →
      ∀ m : Menu,
        m ∈ (L.foldl dictInsertMenu d).map Prod.snd ↔ m ∈ d.map Prod.snd ∨ m ∈ L := by
  intro L
  induction L with
  | nil =>
    intro d _ _ _ m
    simp
  | cons m0 L' ih =>
    intro d hwf hdU hLU m
    simp only [List.foldl_cons]
    have hm0U : m0 ∈ U := hLU m0 (List.mem_cons_self _ _)
    by_cases hany : (d.any (fun p => p.1 == m0.id)) = true
    · obtain ⟨p, hp, hpid⟩ := List.any_eq_true.mp hany
      have hpid' : p.1 = m0.id := by simpa using hpid
      have hpm : p.2 = m0 :=
        hcons p.2 (hdU p hp) m0 hm0U (by rw [← hwf p hp, hpid'])
      have hins : dictInsertMenu d m0 = d := by
        unfold dictInsertMenu
        rw [if_pos hany]
        apply list_map_self
        intro q hq
        by_cases hq1 : (q.1 == m0.id) = true
        · rw [if_pos hq1]
          have hq1' : q.1 = m0.id := by simpa using hq1
          have hq2 : q.2 = m0 :=
            hcons q.2 (hdU q hq) m0 hm0U (by rw [← hwf q hq, hq1'])
          exact ((Prod.ext_iff.mpr ⟨hq1', hq2⟩ : q = (m0.id, m0))).symm
        · rw [if_neg hq1]
      rw [hins,
        ih d hwf hdU (fun x hx => hLU x (List.mem_cons_of_mem _ hx)) m]
      constructor
      · rintro (h | h)
        · exact Or.inl h
        · exact Or.inr (List.mem_cons_of_mem _ h)
      · rintro (h | h)
        · exact Or.inl h
        · rcases List.mem_cons.mp h with rfl | h'
          · exact Or.inl (List.mem_map.mpr ⟨p, hp, hpm⟩)
          · exact Or.inr h'
    · have hins : dictInsertMenu d m0 = d ++ [(m0.id, m0)] := by
        unfold dictInsertMenu
        rw [if_neg hany]
      have hwf' : ∀ p ∈ d ++ [(m0.id, m0)], p.1 = p.2.id := by
        intro p hp
        rcases List.mem_append.mp hp with hp' | hp'
        · exact hwf p hp'
        · have : p = (m0.id, m0) := by simpa using hp'
          rw [this]
      have hdU' : ∀ p ∈ d ++ [(m0.id, m0)], p.2 ∈ U := by
        intro p hp
        rcases List.mem_append.mp hp with hp' | hp'
        · exact hdU p hp'
        · have : p = (m0.id, m0) := by simpa using hp'
          rw [this]
          exact hm0U
      rw [hins,
        ih (d ++ [(m0.id, m0)]) hwf' hdU'
          (fun x hx => hLU x (List.mem_cons_of_mem _ hx)) m]
      simp [or_assoc]

/-- Shared helper: under id-consistency, the values of the deduplicated menu
dict are exactly the menus attached to the roles. -/
theorem uniqueMenus_values_mem (roles : List Role)
    (hcons : MenusConsistent (allMenusOf roles)) (m : Menu) :
    m ∈ (uniqueMenus roles).map Prod.snd ↔ m ∈ allMenusOf roles := by
  unfold uniqueMenus
  rw [uniqueMenus_foldl]
  rw [dictInsertMenu_values_mem (allMenusOf roles) hcons (allMenusOf roles) []
      (by intro p hp; cases hp) (by intro p hp; cases hp) (fun x hx => hx) m]
  simp

/-- Shared helper: the allow_perms fold appends exactly the flattened
enabled codes of the dict values. -/
theorem allowPerms_foldl (d : List (Nat × Menu)) :
    ∀ acc : List String,
      d.foldl
        (fun allow_perms p =>
          if menuTruthyPerms p.2 && (p.2.status == 1) then
            allow_perms ++ menuSplitCodes p.2
          else allow_perms)
        acc
      = acc ++ menusCodes (d.map Prod.snd) := by
  induction d with
  | nil => intro acc; simp [menusCodes]
  | cons p rest ih =>
    intro acc
    have hstep :
        (if menuTruthyPerms p.2 && (p.2.status == 1) then acc ++ menuSplitCodes p.2
         else acc) = acc ++ enabledMenuCodes p.2 := by
      unfold enabledMenuCodes
      by_cases hcnd : (menuTruthyPerms p.2 && (p.2.status == 1)) = true
      · rw [if_pos hcnd, if_pos hcnd]
      · rw [if_neg hcnd, if_neg hcnd, List.append_nil]
    simp only [List.foldl_cons, List.map_cons, menusCodes, hstep]
    rw [ih (acc ++ enabledMenuCodes p.2), List.append_assoc]

/-- Shared helper: membership in the flattened code list of a menu list. -/
theorem menusCodes_mem (p : String) :
    ∀ L : List Menu, p ∈ menusCodes L ↔ ∃ m ∈ L, p ∈ enabledMenuCodes m := by
  intro L
  induction L with
  | nil => simp [menusCodes]
  | cons m rest ih => simp [menusCodes, List.mem_append, ih]

/-- Shared helper: under id-consistency, the allow_perms list of rbac_verify
holds a code exactly when the spec-side union over all held roles does. -/
theorem allowPerms_mem_iff (roles : List Role)
    (hcons : MenusConsistent (allMenusOf roles)) (p : String) :
    p ∈ allowPerms roles ↔ p ∈ menuCodeUnion roles := by
  have he : allowPerms roles = menusCodes ((uniqueMenus roles).map Prod.snd) := by
    unfold allowPerms
    rw [allowPerms_foldl, List.nil_append]
  rw [he, menuCodeUnion, menusCodes_mem, menusCodes_mem]
  constructor
  · rintro ⟨m, hm, hp⟩
    exact ⟨m, (uniqueMenus_values_mem roles hcons m).mp hm, hp⟩
  · rintro ⟨m, hm, hp⟩
    exact ⟨m, (uniqueMenus_values_mem roles hcons m).mpr hm, hp⟩

/-- C7 counterexample: the principal c7User holds the required code
sys:dept:list only through a disabled role (status 0), so by the claim the
code counts for nothing and the request is denied; the code allows it, as
rbac_verify collects menus from every held role without testing role
status. The spec-side union over enabled roles is empty. -/
theorem c7_disabled_role_code_still_counts :
    rbac_verify defaultSettings (.ok ()) "/api/v1/users" ["v1"] c7User "POST"
      (some "sys:dept:list") = .ok () ∧
    menuCodeUnion (enabledRoles c7User.roles) = [] := by
  exact ⟨rfl, rfl⟩

/-- C7 as amended: with menu-code mode on, a present required code outside
the bypass list, and the earlier checks passing (path not excluded, token
scopes present, not superuser, nonempty roles, some role with a menu, and a
staff principal, the staff check applying to every method), rbac_verify
allows exactly when the required code is in the union over all of the
principal's held roles, role status not consulted, of the codes attached to
enabled menus with nonempty code strings, split on the comma delimiter and
flattened; menus are deduplicated by id, which is lossless under the menu
id-consistency invariant. -/
theorem c7_allow_iff_code_in_union (s : Settings) (casbin : Except RbacError Unit)
    (path : String) (authScopes : List String) (user : Principal) (method : String)
    (perm : String)
    (hpath1 : path ∉ s.token_request_path_exclude)
    (hpath2 : s.token_request_path_exclude_pattern path = false)
    (hscopes : authScopes ≠ [])
    (hsu : user.is_superuser = false)
    (hroles : user.roles ≠ [])
    (hmenus : user.roles.any (fun role => role.menus.length > 0) = true)
    (hstaff : user.is_staff = true)
    (hmode : s.rbac_role_menu_mode = true)
    (hperm : perm ≠ "")
    (hexcl : perm ∉ s.rbac_role_menu_exclude)
    (hcons : MenusConsistent (allMenusOf user.roles)) :
    rbac_verify s casbin path authScopes user method (some perm) = .ok ()
      ↔ perm ∈ menuCodeUnion user.roles := by
  have hallfalse : user.roles.all (fun status => roleIntEq status 0) = false := by
    cases hr : user.roles with
    | nil => exact absurd hr hroles
    | cons a l => simp [roleIntEq]
  have hperm' : (perm == "") = false := by simpa using hperm
  by_cases hc : perm ∈ allowPerms user.roles
  · have hmem : perm ∈ menuCodeUnion user.roles :=
      (allowPerms_mem_iff user.roles hcons perm).mp hc
    simp [rbac_verify, hpath1, hpath2, hscopes, hsu, hroles, hallfalse, hmenus,
      hstaff, hmode, hperm', hexcl, hc, hmem]
  · have hnmem : perm ∉ menuCodeUnion user.roles := fun hmem =>
      hc ((allowPerms_mem_iff user.roles hcons perm).mpr hmem)
    simp [rbac_verify, hpath1, hpath2, hscopes, hsu, hroles, hallfalse, hmenus,
      hstaff, hmode, hperm', hexcl, hc, hnmem]

/-- Witness for C7 at the concrete principal c7User, whose disabled role
carries the required code on an enabled menu. -/
theorem c7_allow_iff_code_in_union_witness :
    (rbac_verify defaultSettings (.ok ()) "/api/v1/users" ["v1"] c7User "POST"
        (some "sys:dept:list") = .ok ()) ↔
      "sys:dept:list" ∈ menuCodeUnion c7User.roles :=
  c7_allow_iff_code_in_union defaultSettings (.ok ()) "/api/v1/users" ["v1"] c7User
    "POST" "sys:dept:list" (by decide) rfl (by simp) rfl (by decide) (by decide) rfl rfl
    (by decide) (by decide)
    (by
      intro m1 h1 m2 h2 _hid
      simp [c7User, allMenusOf] at h1 h2
      rw [h1, h2])

/-- Witness for C3 at the concrete unknown-operator rule c3Rule. -/
theorem c3_unknown_expression_silently_dropped_witness :
    processDataRules defaultSettings ([], []) ([] ++ c3Rule :: []) =
      processDataRules defaultSettings ([], []) ([] ++ []) ∧
    filter_data_permission defaultSettings c3Db c3User = .ok trivialTrue :=
  c3_unknown_expression_silently_dropped defaultSettings ([], []) [] [] c3Rule
    (by decide) rfl

/-- Witness for C9 at the concrete superuser c9User. -/
theorem c9_superuser_bypass_witness :
    filter_data_permission defaultSettings emptyScopeDb c9User = .ok trivialTrue ∧
    rbac_verify defaultSettings (.ok ()) "/api/v1/users" ["v1"] c9User "POST"
      (some "sys:dept:list") = .ok () :=
  c9_superuser_bypass defaultSettings emptyScopeDb (.ok ()) "/api/v1/users" ["v1"]
    c9User "POST" (some "sys:dept:list") rfl (by simp)

end Fba
